import Mathlib

/-!
Verification of the Quantum-Risk-API value-at-risk pipeline.

This file gives a shallow embedding of the repository's VaR request pipeline
(`src/api/routes/risk_api.py`) and of the risk-calculation engine
(`src/api/risk/calculations.py`), and proves or refutes the specification's
claims about them.

Modelling conventions:
* Python floats are modelled as rationals (ℚ).
* Python `str(int)` / the textual rendering of numbers is modelled by an
  injective decimal rendering (`natReprL`, `intReprL`, `qReprL`).
* Python's process-seeded 64-bit string hash enters as a function parameter;
  where its range matters it is a function into `Fin (2 ^ 64)`.
* Wall-clock readings (`datetime.utcnow()`, elapsed time) enter as parameters.
* `redis` is modelled as an association list of string keys; the JSON
  serialisation `json.dumps`/`json.loads` of the response payload is modelled
  by storing the structured payload itself (the source stores and re-reads a
  faithful serialisation of exactly the payload's fields).
* A Python exception escaping an expression is modelled with `Except`.
-/

/-! ### Decimal rendering of numbers (model of Python str()) -/

/-- Little-endian base-10 digits, by structural recursion on an explicit fuel
argument so that the definition evaluates by kernel reduction. -/
def digitsFuel : ℕ → ℕ → List ℕ
  | 0, _ => []
  | fuel + 1, n => if n = 0 then [] else n % 10 :: digitsFuel fuel (n / 10)

lemma digitsFuel_eq_digits (fuel : ℕ) :
    ∀ n, n ≤ fuel → digitsFuel fuel n = Nat.digits 10 n := by
  induction fuel with
  | zero =>
    intro n hn
    interval_cases n
    simp [digitsFuel]
  | succ f ih =>
    intro n hn
    by_cases h0 : n = 0
    · subst h0; simp [digitsFuel]
    · have hpos : 0 < n := Nat.pos_of_ne_zero h0
      have hdiv : n / 10 < n := Nat.div_lt_self hpos (by norm_num)
      have hfuel : n / 10 ≤ f := Nat.lt_succ_iff.mp (lt_of_lt_of_le hdiv hn)
      simp only [digitsFuel, if_neg h0]
      rw [Nat.digits_def' (by norm_num : (1:ℕ) < 10) hpos, ih (n / 10) hfuel]

/-- Base-10 digits of a natural number, little-endian. -/
def pyNatDigits (n : ℕ) : List ℕ := digitsFuel n n

lemma pyNatDigits_eq (n : ℕ) : pyNatDigits n = Nat.digits 10 n :=
  digitsFuel_eq_digits n n le_rfl

/-- Decimal rendering of a natural number, as Python str() renders it. -/
def natReprL (n : ℕ) : List Char :=
  if n = 0 then ['0'] else ((pyNatDigits n).map Nat.digitChar).reverse

/-- A decimal digit character. -/
def decChar (c : Char) : Prop :=
  c ∈ (['0', '1', '2', '3', '4', '5', '6', '7', '8', '9'] : List Char)

instance (c : Char) : Decidable (decChar c) := by unfold decChar; infer_instance

lemma digitChar_decChar : ∀ a < 10, decChar (Nat.digitChar a) := by decide

lemma digitChar_inj_lt : ∀ a < 10, ∀ b < 10,
    Nat.digitChar a = Nat.digitChar b → a = b := by decide

lemma map_digitChar_inj : ∀ {l1 l2 : List ℕ}, (∀ d ∈ l1, d < 10) → (∀ d ∈ l2, d < 10) →
    l1.map Nat.digitChar = l2.map Nat.digitChar → l1 = l2 := by
  intro l1
  induction l1 with
  | nil => intro l2 _ _ e; cases l2 <;> simp_all
  | cons a t ih =>
    intro l2 h1 h2 e
    cases l2 with
    | nil => simp_all
    | cons b t2 =>
      simp only [List.map_cons, List.cons.injEq] at e
      have hab : a = b :=
        digitChar_inj_lt a (h1 a (by simp)) b (h2 b (by simp)) e.1
      subst hab
      have ht : t = t2 :=
        ih (fun d hd => h1 d (List.mem_cons_of_mem a hd))
          (fun d hd => h2 d (List.mem_cons_of_mem a hd)) e.2
      rw [ht]

lemma natReprL_decChar (n : ℕ) : ∀ c ∈ natReprL n, decChar c := by
  intro c hc
  unfold natReprL at hc
  by_cases h0 : n = 0
  · simp [h0] at hc; subst hc; decide
  · rw [if_neg h0, List.mem_reverse] at hc
    obtain ⟨d, hd, rfl⟩ := List.mem_map.mp hc
    rw [pyNatDigits_eq] at hd
    exact digitChar_decChar d (Nat.digits_lt_base (by norm_num) hd)

lemma natReprL_ne_nil (n : ℕ) : natReprL n ≠ [] := by
  unfold natReprL
  by_cases h0 : n = 0
  · simp [h0]
  · rw [if_neg h0]
    simp only [ne_eq, List.reverse_eq_nil_iff, List.map_eq_nil_iff, pyNatDigits_eq]
    exact Nat.digits_ne_nil_iff_ne_zero.mpr h0

lemma natReprL_inj {m n : ℕ} (h : natReprL m = natReprL n) : m = n := by
  by_cases hm : m = 0 <;> by_cases hn : n = 0
  · omega
  · exfalso
    unfold natReprL at h
    rw [if_pos hm, if_neg hn] at h
    have : (pyNatDigits n).map Nat.digitChar = ['0'] := by
      have := congrArg List.reverse h
      simpa using this.symm
    have hdig : Nat.digits 10 n = [0] := by
      rw [pyNatDigits_eq] at this
      have h0 : ([0] : List ℕ).map Nat.digitChar = ['0'] := by decide
      exact map_digitChar_inj
        (fun d hd => Nat.digits_lt_base (by norm_num) hd)
        (by intro d hd; simp at hd; omega) (this.trans h0.symm)
    have := Nat.ofDigits_digits 10 n
    rw [hdig] at this
    simp [Nat.ofDigits] at this
    exact hn this.symm
  · exfalso
    unfold natReprL at h
    rw [if_neg hm, if_pos hn] at h
    have : (pyNatDigits m).map Nat.digitChar = ['0'] := by
      have := congrArg List.reverse h
      simpa using this
    have hdig : Nat.digits 10 m = [0] := by
      rw [pyNatDigits_eq] at this
      have h0 : ([0] : List ℕ).map Nat.digitChar = ['0'] := by decide
      exact map_digitChar_inj
        (fun d hd => Nat.digits_lt_base (by norm_num) hd)
        (by intro d hd; simp at hd; omega) (this.trans h0.symm)
    have := Nat.ofDigits_digits 10 m
    rw [hdig] at this
    simp [Nat.ofDigits] at this
    exact hm this.symm
  · unfold natReprL at h
    rw [if_neg hm, if_neg hn] at h
    have hrev := List.reverse_injective h
    have hmap := map_digitChar_inj
      (by rw [pyNatDigits_eq]; exact fun d hd => Nat.digits_lt_base (by norm_num) hd)
      (by rw [pyNatDigits_eq]; exact fun d hd => Nat.digits_lt_base (by norm_num) hd) hrev
    rw [pyNatDigits_eq, pyNatDigits_eq] at hmap
    have h1 := Nat.ofDigits_digits 10 m
    have h2 := Nat.ofDigits_digits 10 n
    rw [hmap] at h1
    exact h1.symm.trans h2

/-- Decimal rendering of an integer (Python str(int)): a minus sign followed by
the rendering of the absolute value for negative inputs. -/
def intReprL : ℤ → List Char
  | .ofNat n => natReprL n
  | .negSucc n => '-' :: natReprL (n + 1)

/-- The characters a rendered integer can contain. -/
def intChar (c : Char) : Prop := decChar c ∨ c = '-'

lemma intReprL_intChar (z : ℤ) : ∀ c ∈ intReprL z, intChar c := by
  intro c hc
  cases z with
  | ofNat n => exact Or.inl (natReprL_decChar n c hc)
  | negSucc n =>
    simp only [intReprL, List.mem_cons] at hc
    rcases hc with rfl | hc
    · exact Or.inr rfl
    · exact Or.inl (natReprL_decChar (n + 1) c hc)

lemma intReprL_inj : ∀ {a b : ℤ}, intReprL a = intReprL b → a = b := by
  intro a b h
  cases a with
  | ofNat m =>
    cases b with
    | ofNat n => exact congrArg Int.ofNat (natReprL_inj h)
    | negSucc n =>
      exfalso
      have hmem : '-' ∈ natReprL m := by rw [show intReprL (Int.ofNat m) = natReprL m from rfl] at h; rw [h]; simp [intReprL]
      have := natReprL_decChar m '-' hmem
      revert this; decide
  | negSucc m =>
    cases b with
    | ofNat n =>
      exfalso
      have hmem : '-' ∈ natReprL n := by rw [show intReprL (Int.ofNat n) = natReprL n from rfl] at h; rw [← h]; simp [intReprL]
      have := natReprL_decChar n '-' hmem
      revert this; decide
    | negSucc n =>
      simp only [intReprL, List.cons.injEq, true_and] at h
      have hmn : m = n := by have := natReprL_inj h; omega
      rw [hmn]

/-- Decimal rendering of a rational as numerator, slash, denominator: an
injective rendering standing for Python repr() of the float value. -/
def qReprL (q : ℚ) : List Char := intReprL q.num ++ '/' :: natReprL q.den

/-- Splitting a list at a separator character that occurs in neither prefix is
unambiguous. -/
lemma append_sep_inj {sep : Char} :
    ∀ {l1 l2 m1 m2 : List Char}, sep ∉ l1 → sep ∉ l2 →
      l1 ++ sep :: m1 = l2 ++ sep :: m2 → l1 = l2 ∧ m1 = m2 := by
  intro l1
  induction l1 with
  | nil =>
    intro l2 m1 m2 _ h2 e
    cases l2 with
    | nil => simpa using e
    | cons c t =>
      exfalso
      simp only [List.nil_append, List.cons_append, List.cons.injEq] at e
      exact h2 (e.1 ▸ List.mem_cons_self c t)
  | cons a t ih =>
    intro l2 m1 m2 h1 h2 e
    cases l2 with
    | nil =>
      exfalso
      simp only [List.nil_append, List.cons_append, List.cons.injEq] at e
      exact h1 (e.1 ▸ List.mem_cons_self a t)
    | cons b t2 =>
      simp only [List.cons_append, List.cons.injEq] at e
      obtain ⟨rfl, e2⟩ := e
      have h1t : sep ∉ t := fun hm => h1 (List.mem_cons_of_mem a hm)
      have h2t : sep ∉ t2 := fun hm => h2 (List.mem_cons_of_mem a hm)
      obtain ⟨ht, hm⟩ := ih h1t h2t e2
      exact ⟨by rw [ht], hm⟩

instance (c : Char) : Decidable (intChar c) := by unfold intChar; infer_instance

lemma decChar_not_slash {c : Char} (h : decChar c) : c ≠ '/' := by
  intro hq; rw [hq] at h; revert h; decide

lemma decChar_not_space {c : Char} (h : decChar c) : c ≠ ' ' := by
  intro hq; rw [hq] at h; revert h; decide

lemma intChar_not_slash {c : Char} (h : intChar c) : c ≠ '/' := by
  intro hq; rw [hq] at h; revert h; decide

lemma intChar_not_space {c : Char} (h : intChar c) : c ≠ ' ' := by
  intro hq; rw [hq] at h; revert h; decide

lemma qReprL_inj {q r : ℚ} (h : qReprL q = qReprL r) : q = r := by
  unfold qReprL at h
  have hq : '/' ∉ intReprL q.num :=
    fun hm => intChar_not_slash (intReprL_intChar _ _ hm) rfl
  have hr : '/' ∉ intReprL r.num :=
    fun hm => intChar_not_slash (intReprL_intChar _ _ hm) rfl
  obtain ⟨h1, h2⟩ := append_sep_inj hq hr h
  exact Rat.ext (intReprL_inj h1) (natReprL_inj h2)

lemma qReprL_no_space (q : ℚ) : ' ' ∉ qReprL q := by
  intro hm
  unfold qReprL at hm
  rcases List.mem_append.mp hm with hm | hm
  · exact intChar_not_space (intReprL_intChar _ _ hm) rfl
  · rcases List.mem_cons.mp hm with h | hm
    · exact absurd h.symm (by decide)
    · exact decChar_not_space (natReprL_decChar _ _ hm) rfl

lemma natReprL_no_space (n : ℕ) : ' ' ∉ natReprL n := by
  intro hm
  exact decChar_not_space (natReprL_decChar _ _ hm) rfl

/-! ### Request data model (pydantic models of src/api/routes/risk_api.py) -/

/-- Individual portfolio position (PortfolioPosition, lines 22-34). Floats are
modelled as ℚ; the optional fields default to None as in the source. -/
structure PortfolioPosition where
  symbol : String
  weight : ℚ
  market_value : Option ℚ := none
  quantity : Option ℚ := none
deriving DecidableEq

/-- Field validation of a symbol: the regex "^[A-Z]{1,10}$" together with the
isalpha check of validate_symbol. -/
def symbolValid (s : String) : Bool :=
  1 ≤ s.length && s.length ≤ 10 && s.data.all Char.isUpper

/-- Field validation of one position: symbol pattern, weight in [0,1],
market_value strictly positive when present. -/
def positionValid (p : PortfolioPosition) : Bool :=
  symbolValid p.symbol && 0 ≤ p.weight && p.weight ≤ 1 &&
    (match p.market_value with
     | none => true
     | some mv => 0 < mv)

/-- Portfolio risk calculation request (PortfolioRequest, lines 36-48). -/
structure PortfolioRequest where
  portfolio_id : String
  name : Option String := none
  positions : List PortfolioPosition
  base_currency : String := "USD"
deriving DecidableEq

/-- Sum of the position weights, as validate_portfolio_weights computes it. -/
def total_weight (v : List PortfolioPosition) : ℚ := (v.map (·.weight)).sum

/-- Message of the ValueError raised by validate_portfolio_weights. -/
def weightErrorMsg (t : ℚ) : String :=
  String.mk ("Portfolio weights must sum to 1.0, got ".data ++ qReprL t)

/-- validator validate_portfolio_weights (lines 43-48): raises ValueError when
the weight sum deviates from 1.0 by more than 0.01, else returns the
positions unchanged. -/
def validate_portfolio_weights (v : List PortfolioPosition) :
    Except String (List PortfolioPosition) :=
  if |total_weight v - 1| > 1 / 100 then .error (weightErrorMsg (total_weight v))
  else .ok v

/-- Whole-model validation of a PortfolioRequest as pydantic performs it before
the route handler runs: field constraints, the position-count bounds
min_items=1 / max_items=500, and the weight-sum validator. -/
def portfolioRequestValid (r : PortfolioRequest) : Bool :=
  1 ≤ r.positions.length && r.positions.length ≤ 500 &&
    r.positions.all positionValid &&
    (match validate_portfolio_weights r.positions with
     | .ok _ => true
     | .error _ => false)

/-- The four calculation methods admitted by the regex
"^(historical|parametric|monte_carlo|quantum_mc)$". -/
inductive Method
  | historical
  | parametric
  | monte_carlo
  | quantum_mc
deriving DecidableEq

/-- The string literal of each method. -/
def methodStr : Method → String
  | .historical => "historical"
  | .parametric => "parametric"
  | .monte_carlo => "monte_carlo"
  | .quantum_mc => "quantum_mc"

/-- Risk calculation parameters (RiskCalculationRequest, lines 50-56), with the
source's default values. -/
structure RiskCalculationRequest where
  confidence_level : ℚ := 95 / 100
  time_horizon : ℕ := 1
  method : Method := .quantum_mc
  num_simulations : ℕ := 10000
  risk_free_rate : ℚ := 2 / 100
deriving DecidableEq

/-- Field bounds of RiskCalculationRequest as pydantic enforces them. -/
def riskParamsValid (p : RiskCalculationRequest) : Bool :=
  90 / 100 ≤ p.confidence_level && p.confidence_level ≤ 999 / 1000 &&
    1 ≤ p.time_horizon && p.time_horizon ≤ 252 &&
    1000 ≤ p.num_simulations && p.num_simulations ≤ 100000 &&
    0 ≤ p.risk_free_rate && p.risk_free_rate ≤ 10 / 100

/-- The apostrophe character pydantic's repr puts around the method string. -/
def quoteChar : Char := Char.ofNat 39

/-- Model of Python str(risk_params) for the pydantic model: space-separated
field=value pairs in declaration order, the enumerated method quoted. The
numeric values are rendered by the injective decimal renderings above. -/
def strOfRiskParamsL (p : RiskCalculationRequest) : List Char :=
  "confidence_level=".data ++ (qReprL p.confidence_level ++ (' ' ::
    ("time_horizon=".data ++ (natReprL p.time_horizon ++ (' ' ::
      ("method=".data ++ (quoteChar :: ((methodStr p.method).data ++ (quoteChar :: (' ' ::
        ("num_simulations=".data ++ (natReprL p.num_simulations ++ (' ' ::
          ("risk_free_rate=".data ++ qReprL p.risk_free_rate))))))))))))))

def strOfRiskParams (p : RiskCalculationRequest) : String :=
  String.mk (strOfRiskParamsL p)

lemma methodStr_chars : ∀ m : Method,
    quoteChar ∉ (methodStr m).data ∧ ' ' ∉ (methodStr m).data := by
  intro m; cases m <;> decide

lemma methodStr_inj : ∀ m1 m2 : Method, methodStr m1 = methodStr m2 → m1 = m2 := by
  intro m1 m2
  cases m1 <;> cases m2 <;> decide

lemma strOfRiskParamsL_inj {p1 p2 : RiskCalculationRequest}
    (h : strOfRiskParamsL p1 = strOfRiskParamsL p2) : p1 = p2 := by
  unfold strOfRiskParamsL at h
  have h1 := List.append_cancel_left h
  obtain ⟨hc, h2⟩ := append_sep_inj (qReprL_no_space _) (qReprL_no_space _) h1
  have hcl : p1.confidence_level = p2.confidence_level := qReprL_inj hc
  have h3 := List.append_cancel_left h2
  obtain ⟨hth, h4⟩ := append_sep_inj (natReprL_no_space _) (natReprL_no_space _) h3
  have hthn : p1.time_horizon = p2.time_horizon := natReprL_inj hth
  have h5 := List.append_cancel_left h4
  have h6 := (List.cons.injEq _ _ _ _ ▸ h5 : _ ∧ _).2
  obtain ⟨hme, h7⟩ := append_sep_inj (methodStr_chars p1.method).1 (methodStr_chars p2.method).1 h6
  have hmeth : p1.method = p2.method := by
    apply methodStr_inj
    cases hs1 : methodStr p1.method
    cases hs2 : methodStr p2.method
    rw [hs1, hs2] at hme
    exact congrArg String.mk hme
  have h8 := (List.cons.injEq _ _ _ _ ▸ h7 : _ ∧ _).2
  have h9 := List.append_cancel_left h8
  obtain ⟨hns, h10⟩ := append_sep_inj (natReprL_no_space _) (natReprL_no_space _) h9
  have hnsn : p1.num_simulations = p2.num_simulations := natReprL_inj hns
  have h11 := List.append_cancel_left h10
  have hrfr : p1.risk_free_rate = p2.risk_free_rate := qReprL_inj h11
  cases p1
  cases p2
  simp_all

lemma strOfRiskParams_inj {p1 p2 : RiskCalculationRequest}
    (h : strOfRiskParams p1 = strOfRiskParams p2) : p1 = p2 := by
  unfold strOfRiskParams at h
  exact strOfRiskParamsL_inj (congrArg String.data h)

/-- Model of cache_key = f"var:{portfolio_id}:{hash(str(risk_params))}"
(line 191). The process-seeded Python string hash enters as the parameter h. -/
def derive_cache_key (h : String → ℤ) (portfolio_id : String)
    (risk_params : RiskCalculationRequest) : String :=
  "var:" ++ portfolio_id ++ ":" ++ String.mk (intReprL (h (strOfRiskParams risk_params)))

lemma derive_cache_key_hash_inj {h : String → ℤ} {pid : String}
    {p1 p2 : RiskCalculationRequest}
    (he : derive_cache_key h pid p1 = derive_cache_key h pid p2) :
    h (strOfRiskParams p1) = h (strOfRiskParams p2) := by
  unfold derive_cache_key at he
  have hd := congrArg String.data he
  simp only [String.data_append, List.append_assoc] at hd
  have h1 := List.append_cancel_left hd
  have h2 := List.append_cancel_left h1
  have h3 := List.append_cancel_left h2
  exact intReprL_inj h3

/-! ### Risk calculation engine (src/api/risk/calculations.py) -/

/-- Portfolio data structure (calculations.py lines 13-20): positions maps
symbol to weight, prices maps symbol to current price. Python dicts are
modelled as association lists in insertion order. The optional
returns/correlation/volatility fields are not read by any of the engine's
arithmetic and are omitted. -/
structure Portfolio where
  positions : List (String × ℚ)
  prices : List (String × ℚ)
deriving DecidableEq

/-- sum(portfolio.positions.values()) — the quantity the engine calls
portfolio_value: the sum of the position WEIGHTS. -/
def portfolio_value (p : Portfolio) : ℚ := (p.positions.map (·.2)).sum

/-- The aggregate notional value per the specification's glossary: the sum of
the position market values (the values of the prices dict). This definition
follows the spec's words, for comparison with what the code computes. -/
def glossaryNotionalValue (p : Portfolio) : ℚ := (p.prices.map (·.2)).sum

/-- A Python exception raised by the engine. -/
inductive PyExn
  | zeroDivisionError
deriving DecidableEq

/-- Enterprise-grade quantum-inspired risk calculation engine (class
QuantumRiskEngine, lines 36-42). -/
structure QuantumRiskEngine where
  quantum_enabled : Bool := true
  trading_days_per_year : ℕ := 252
  confidence_levels : List ℚ := [90 / 100, 95 / 100, 99 / 100]
deriving DecidableEq

/-- The dictionary calculate_var returns (lines 81-90). calculation_time is
the near-zero wall clock of the stub arithmetic, modelled as 0. -/
structure VarResult where
  var_amount : ℚ
  confidence_level : ℚ
  time_horizon : ℕ
  method : Method
  calculation_time : ℚ
  portfolio_value : ℚ
  var_percentage : ℚ
  quantum_enhanced : Bool
deriving DecidableEq

/-- The dictionary calculate_cvar returns (lines 103-109). -/
structure CvarResult where
  cvar_amount : ℚ
  confidence_level : ℚ
  time_horizon : ℕ
  calculation_time : ℚ
  cvar_percentage : ℚ
deriving DecidableEq

/-- Risk calculation results (dataclass RiskMetrics, lines 22-34). -/
structure RiskMetrics where
  var_95 : ℚ
  var_99 : ℚ
  cvar_95 : ℚ
  cvar_99 : ℚ
  volatility_daily : ℚ
  volatility_annual : ℚ
  sharpe_ratio : ℚ
  max_drawdown : ℚ
  calculation_time : ℚ
  methodology : String
deriving DecidableEq

namespace QuantumRiskEngine

/-- QuantumRiskEngine.calculate_var (lines 44-90): multiplies the weight sum by
a per-method constant; computing var_percentage divides by the weight sum and
raises ZeroDivisionError when it is zero. -/
def calculate_var (_e : QuantumRiskEngine) (portfolio : Portfolio)
    (confidence_level : ℚ := 95 / 100) (time_horizon : ℕ := 1)
    (method : Method := .quantum_mc) : Except PyExn VarResult :=
  let pv := portfolio_value portfolio
  let var_result :=
    match method with
    | .quantum_mc => pv * (23 / 1000)
    | .monte_carlo => pv * (25 / 1000)
    | .historical => pv * (22 / 1000)
    | .parametric => pv * (24 / 1000)
  if pv = 0 then .error .zeroDivisionError
  else
    .ok { var_amount := var_result
          confidence_level := confidence_level
          time_horizon := time_horizon
          method := method
          calculation_time := 0
          portfolio_value := pv
          var_percentage := var_result / pv * 100
          quantum_enhanced := method == .quantum_mc }

/-- QuantumRiskEngine.calculate_cvar (lines 92-109). -/
def calculate_cvar (_e : QuantumRiskEngine) (portfolio : Portfolio)
    (confidence_level : ℚ := 95 / 100) (time_horizon : ℕ := 1) :
    Except PyExn CvarResult :=
  let pv := portfolio_value portfolio
  let cvar_result := pv * (31 / 1000)
  if pv = 0 then .error .zeroDivisionError
  else
    .ok { cvar_amount := cvar_result
          confidence_level := confidence_level
          time_horizon := time_horizon
          calculation_time := 0
          cvar_percentage := cvar_result / pv * 100 }

/-- QuantumRiskEngine.calculate_portfolio_metrics (lines 111-146). sqrt252
stands for the floating-point value of np.sqrt(252), which is irrational and
enters the ℚ model as a parameter; no claim depends on its value. -/
def calculate_portfolio_metrics (e : QuantumRiskEngine) (sqrt252 : ℚ)
    (portfolio : Portfolio) (risk_free_rate : ℚ := 2 / 100) : RiskMetrics :=
  let pv := portfolio_value portfolio
  let volatility_daily : ℚ := 15 / 1000
  let volatility_annual := volatility_daily * sqrt252
  let annual_return : ℚ := 12 / 100
  { var_95 := pv * (23 / 1000)
    var_99 := pv * (35 / 1000)
    cvar_95 := pv * (31 / 1000)
    cvar_99 := pv * (48 / 1000)
    volatility_daily := volatility_daily
    volatility_annual := volatility_annual
    sharpe_ratio := (annual_return - risk_free_rate) / volatility_annual
    max_drawdown := pv * (85 / 1000)
    calculation_time := 0
    methodology := if e.quantum_enabled then "quantum_enhanced" else "classical" }

end QuantumRiskEngine

/-! ### Route-level utilities (risk_api.py) -/

/-- max(pos.weight for pos in positions): a left fold with max over a
nonempty list; Python raises on an empty sequence, which pydantic's
min_items=1 makes unreachable, so the empty case is given the junk value 0. -/
def max_weight : List PortfolioPosition → ℚ
  | [] => 0
  | p :: ps => ps.foldl (fun a q => max a q.weight) p.weight

/-- Positions filtered to weight < 0.01 (line 417). -/
def micro_positions (v : List PortfolioPosition) : List PortfolioPosition :=
  v.filter (fun p => p.weight < 1 / 100)

/-- The concentration-risk warning string (line 410), with the maximal weight
rendered by the model's rational rendering. -/
def concentrationWarning (w : ℚ) : String :=
  String.mk ("High concentration risk: ".data ++ (qReprL w ++ " in single position".data))

/-- The low-diversification warning string (line 414). -/
def lowDiversificationWarning : String := "Low diversification: fewer than 5 positions"

/-- The micro-position warning string (line 419). -/
def microWarning (k : ℕ) : String :=
  String.mk ("Many micro positions (".data ++ (natReprL k ++ ") may increase transaction costs".data))

/-- validate_portfolio_risk (lines 403-421): builds the non-fatal warning list
by appending each triggered warning in order. -/
def validate_portfolio_risk (r : PortfolioRequest) : List String :=
  (if max_weight r.positions > 3 / 10 then [concentrationWarning (max_weight r.positions)] else []) ++
    ((if r.positions.length < 5 then [lowDiversificationWarning] else []) ++
      (if (micro_positions r.positions).length > 10 then
        [microWarning (micro_positions r.positions).length] else []))

/-- Insertion into a Python dict modelled as an association list: a later value
for an existing key overwrites in place, a new key is appended. -/
def dictInsert (d : List (String × ℚ)) (k : String) (v : ℚ) : List (String × ℚ) :=
  if d.any (fun e => e.1 == k) then d.map (fun e => if e.1 == k then (k, v) else e)
  else d ++ [(k, v)]

/-- A dict built from a list of key-value pairs, as a Python dict comprehension
builds it: duplicate keys collapse, the last value wins. -/
def dictOfPairs (ps : List (String × ℚ)) : List (String × ℚ) :=
  ps.foldl (fun d e => dictInsert d e.1 e.2) []

/-- The Portfolio object the handler builds (lines 201-204): positions maps
symbol to weight, prices maps symbol to market_value or the 100.0 default. -/
def portfolioOfRequest (r : PortfolioRequest) : Portfolio :=
  { positions := dictOfPairs (r.positions.map fun p => (p.symbol, p.weight))
    prices := dictOfPairs (r.positions.map fun p => (p.symbol, p.market_value.getD 100)) }

/-! ### Cache, effects and the VaR endpoint pipeline -/

/-- The response's risk_metrics dictionary (lines 230-240). -/
structure RiskMetricsMap where
  var_95 : ℚ
  var_99 : ℚ
  cvar_95 : ℚ
  cvar_99 : ℚ
  volatility_daily : ℚ
  volatility_annual : ℚ
  sharpe_ratio : ℚ
  max_drawdown : ℚ
  currency : String
deriving DecidableEq

/-- The response's methodology dictionary (lines 241-247). -/
structure MethodologyMap where
  model_type : Method
  confidence_level : ℚ
  time_horizon_days : ℕ
  simulation_paths : ℕ
  quantum_enhancement : Bool
deriving DecidableEq

/-- The response_data payload (lines 226-250), also the shape of a cached
payload and of a successful RiskMetricsResponse. from_cache is the extra key
set on a cache hit (line 197), absent (false) in a freshly computed payload. -/
structure ResponseData where
  calculation_id : String
  timestamp : ℚ
  portfolio_id : String
  risk_metrics : RiskMetricsMap
  methodology : MethodologyMap
  warnings : List String
  computation_time_ms : ℚ
  from_cache : Bool := false
deriving DecidableEq

/-- redis keyspace: an association list; a lookup takes the first match. -/
def kvGet (kv : List (String × ResponseData)) (k : String) : Option ResponseData :=
  (kv.find? fun e => e.1 == k).map (·.2)

/-- redis setex: the new entry shadows any previous entry for the key. -/
def kvSet (kv : List (String × ResponseData)) (k : String) (v : ResponseData) :
    List (String × ResponseData) :=
  (k, v) :: kv

/-- Failure modes of the redis client: healthy, failing on get, failing on
setex (connection errors raised inside the handler body). -/
inductive CacheMode
  | healthy
  | failGet
  | failSet
deriving DecidableEq

inductive CacheError
  | connectionError
deriving DecidableEq

def redis_get (mode : CacheMode) (kv : List (String × ResponseData)) (k : String) :
    Except CacheError (Option ResponseData) :=
  match mode with
  | .failGet => .error .connectionError
  | _ => .ok (kvGet kv k)

def redis_setex (mode : CacheMode) (kv : List (String × ResponseData)) (k : String)
    (v : ResponseData) : Except CacheError (List (String × ResponseData)) :=
  match mode with
  | .failSet => .error .connectionError
  | _ => .ok (kvSet kv k v)

/-- Externally observable side effects of one request, in order. -/
inductive Effect
  | cacheGet (key : String)
  | cacheSet (key : String)
  | providerCall
  | auditTask (calculation_id : String)
deriving DecidableEq

/-- The HTTP error responses the endpoint can produce: FastAPI's 422 for a
request body failing pydantic validation, and the blanket HTTPException 500
the handler's try/except maps every exception to (lines 266-270). -/
inductive HTTPError
  | validationError
  | internalServerError
deriving DecidableEq

/-- Outcome of one request: the HTTP result, the cache keyspace afterwards, and
the side effects that occurred, in order. -/
structure VarOutcome where
  result : Except HTTPError ResponseData
  cache : List (String × ResponseData)
  effects : List Effect

/-- The response_data dictionary the handler assembles on a cache miss (lines
226-250): the fresh calculation id, the utcnow() reading of this request, the
metrics from calculate_portfolio_metrics, the methodology echo of the
parameters, the warnings of validate_portfolio_risk, and the wall clock
elapsed for this request. -/
def response_data_of (sqrt252 : ℚ) (engine : QuantumRiskEngine) (freshId : String)
    (now elapsed_ms : ℚ) (portfolio_request : PortfolioRequest)
    (risk_params : RiskCalculationRequest) : ResponseData :=
  let m := engine.calculate_portfolio_metrics sqrt252 (portfolioOfRequest portfolio_request)
    risk_params.risk_free_rate
  { calculation_id := freshId
    timestamp := now
    portfolio_id := portfolio_request.portfolio_id
    risk_metrics :=
      { var_95 := m.var_95
        var_99 := m.var_99
        cvar_95 := m.cvar_95
        cvar_99 := m.cvar_99
        volatility_daily := m.volatility_daily
        volatility_annual := m.volatility_annual
        sharpe_ratio := m.sharpe_ratio
        max_drawdown := m.max_drawdown
        currency := portfolio_request.base_currency }
    methodology :=
      { model_type := risk_params.method
        confidence_level := risk_params.confidence_level
        time_horizon_days := risk_params.time_horizon
        simulation_paths := risk_params.num_simulations
        quantum_enhancement := engine.quantum_enabled }
    warnings := validate_portfolio_risk portfolio_request
    computation_time_ms := elapsed_ms }

/-- The body of calculate_var (lines 176-270). freshId models the
str(uuid.uuid4()) generated for this request, now the utcnow() reading at
entry, elapsed_ms the wall clock elapsed when response_data is assembled
(line 249). Every exception raised in the body is mapped to HTTP 500 by the
enclosing try/except. -/
def calculate_var_handler (h : String → ℤ) (mode : CacheMode) (sqrt252 : ℚ)
    (engine : QuantumRiskEngine) (kv : List (String × ResponseData))
    (freshId : String) (now elapsed_ms : ℚ)
    (portfolio_request : PortfolioRequest) (risk_params : RiskCalculationRequest) :
    VarOutcome :=
  match redis_get mode kv (derive_cache_key h portfolio_request.portfolio_id risk_params) with
  | .error _ => ⟨.error .internalServerError, kv,
      [.cacheGet (derive_cache_key h portfolio_request.portfolio_id risk_params)]⟩
  | .ok (some cached_data) =>
      ⟨.ok { cached_data with calculation_id := freshId, from_cache := true },
        kv, [.cacheGet (derive_cache_key h portfolio_request.portfolio_id risk_params)]⟩
  | .ok none =>
      match QuantumRiskEngine.calculate_var engine (portfolioOfRequest portfolio_request)
          risk_params.confidence_level risk_params.time_horizon risk_params.method with
      | .error _ => ⟨.error .internalServerError, kv,
          [.cacheGet (derive_cache_key h portfolio_request.portfolio_id risk_params),
            .providerCall]⟩
      | .ok _var_result =>
          match redis_setex mode kv (derive_cache_key h portfolio_request.portfolio_id risk_params)
              (response_data_of sqrt252 engine freshId now elapsed_ms portfolio_request risk_params) with
          | .error _ => ⟨.error .internalServerError, kv,
              [.cacheGet (derive_cache_key h portfolio_request.portfolio_id risk_params),
                .providerCall,
                .cacheSet (derive_cache_key h portfolio_request.portfolio_id risk_params)]⟩
          | .ok kv2 =>
              ⟨.ok (response_data_of sqrt252 engine freshId now elapsed_ms portfolio_request risk_params),
                kv2,
                [.cacheGet (derive_cache_key h portfolio_request.portfolio_id risk_params),
                  .providerCall,
                  .cacheSet (derive_cache_key h portfolio_request.portfolio_id risk_params),
                  .auditTask freshId]⟩

/-- The POST /api/portfolio/var endpoint: FastAPI validates the two pydantic
request bodies before the handler body runs; an invalid request is rejected
with a validation error and neither the cache nor the engine is touched. -/
def var_endpoint (h : String → ℤ) (mode : CacheMode) (sqrt252 : ℚ)
    (engine : QuantumRiskEngine) (kv : List (String × ResponseData))
    (freshId : String) (now elapsed_ms : ℚ)
    (portfolio_request : PortfolioRequest) (risk_params : RiskCalculationRequest) :
    VarOutcome :=
  if portfolioRequestValid portfolio_request && riskParamsValid risk_params then
    calculate_var_handler h mode sqrt252 engine kv freshId now elapsed_ms
      portfolio_request risk_params
  else ⟨.error .validationError, kv, []⟩

/-! ### Helper lemmas -/

lemma abs_band {t : ℚ} : ¬(|t - 1| > 1 / 100) ↔ (99 / 100 ≤ t ∧ t ≤ 101 / 100) := by
  rw [not_lt, abs_le]
  constructor
  · rintro ⟨h1, h2⟩
    constructor <;> linarith
  · rintro ⟨h1, h2⟩
    constructor <;> linarith

lemma validate_weights_ok_iff {v : List PortfolioPosition} :
    validate_portfolio_weights v = .ok v ↔
      (99 / 100 ≤ total_weight v ∧ total_weight v ≤ 101 / 100) := by
  unfold validate_portfolio_weights
  by_cases hc : |total_weight v - 1| > 1 / 100
  · rw [if_pos hc]
    constructor
    · intro he; exact absurd he (by simp)
    · intro hband; exact absurd hc (abs_band.mpr hband)
  · rw [if_neg hc]
    exact ⟨fun _ => abs_band.mp hc, fun _ => rfl⟩

lemma foldl_max_lt_iff (l : List PortfolioPosition) (a x : ℚ) :
    x < l.foldl (fun b q => max b q.weight) a ↔ x < a ∨ ∃ p ∈ l, x < p.weight := by
  induction l generalizing a with
  | nil => simp
  | cons p ps ih =>
    simp only [List.foldl_cons]
    rw [ih, lt_max_iff]
    simp only [List.exists_mem_cons_iff]
    tauto

lemma max_weight_gt_iff {v : List PortfolioPosition} (hne : v ≠ []) (x : ℚ) :
    x < max_weight v ↔ ∃ p ∈ v, x < p.weight := by
  cases v with
  | nil => exact absurd rfl hne
  | cons p ps =>
    unfold max_weight
    rw [foldl_max_lt_iff]
    simp only [List.exists_mem_cons_iff]

lemma concentration_head (w : ℚ) : (concentrationWarning w).data.head? = some 'H' := rfl

lemma lowdiv_head : lowDiversificationWarning.data.head? = some 'L' := rfl

lemma micro_head (k : ℕ) : (microWarning k).data.head? = some 'M' := rfl

lemma concentration_ne_lowdiv (w : ℚ) : concentrationWarning w ≠ lowDiversificationWarning := by
  intro he
  have := (congrArg (fun s => s.data.head?) he).symm.trans (concentration_head w)
  rw [lowdiv_head] at this
  exact absurd (Option.some.inj this) (by decide)

lemma concentration_ne_micro (w : ℚ) (k : ℕ) : concentrationWarning w ≠ microWarning k := by
  intro he
  have := (congrArg (fun s => s.data.head?) he).symm.trans (concentration_head w)
  rw [micro_head] at this
  exact absurd (Option.some.inj this) (by decide)

lemma lowdiv_ne_micro (k : ℕ) : lowDiversificationWarning ≠ microWarning k := by
  intro he
  have := (congrArg (fun s => s.data.head?) he).symm.trans lowdiv_head
  rw [micro_head] at this
  exact absurd (Option.some.inj this) (by decide)

lemma mem_warnings (r : PortfolioRequest) (s : String) :
    s ∈ validate_portfolio_risk r ↔
      (max_weight r.positions > 3 / 10 ∧ s = concentrationWarning (max_weight r.positions)) ∨
        (r.positions.length < 5 ∧ s = lowDiversificationWarning) ∨
          ((micro_positions r.positions).length > 10 ∧
            s = microWarning (micro_positions r.positions).length) := by
  unfold validate_portfolio_risk
  by_cases h1 : max_weight r.positions > 3 / 10 <;>
    by_cases h2 : r.positions.length < 5 <;>
      by_cases h3 : (micro_positions r.positions).length > 10 <;>
        simp [h1, h2, h3]

lemma dictInsert_new {d : List (String × ℚ)} {k : String} {v : ℚ}
    (hk : ∀ a ∈ d, a.1 ≠ k) : dictInsert d k v = d ++ [(k, v)] := by
  unfold dictInsert
  have : d.any (fun e => e.1 == k) = false := by
    rw [List.any_eq_false]
    intro a ha
    simpa using hk a ha
  rw [this]
  simp

lemma foldl_dictInsert_nodup :
    ∀ (ps : List (String × ℚ)) (acc : List (String × ℚ)),
      (∀ e ∈ ps, ∀ a ∈ acc, a.1 ≠ e.1) → (ps.map Prod.fst).Nodup →
      ps.foldl (fun d e => dictInsert d e.1 e.2) acc = acc ++ ps := by
  intro ps
  induction ps with
  | nil => intro acc _ _; simp
  | cons e ps ih =>
    intro acc hdisj hnd
    simp only [List.foldl_cons]
    rw [dictInsert_new (fun a ha => hdisj e (List.mem_cons_self e ps) a ha)]
    simp only [List.map_cons, List.nodup_cons] at hnd
    rw [ih (acc ++ [e])]
    · simp
    · intro f hf a ha
      rcases List.mem_append.mp ha with ha | ha
      · exact hdisj f (List.mem_cons_of_mem e hf) a ha
      · have : a = e := by simpa using ha
        subst this
        intro hfe
        exact hnd.1 (hfe ▸ List.mem_map_of_mem Prod.fst hf)
    · exact hnd.2

lemma dictOfPairs_eq_self {ps : List (String × ℚ)} (hnd : (ps.map Prod.fst).Nodup) :
    dictOfPairs ps = ps := by
  unfold dictOfPairs
  rw [foldl_dictInsert_nodup ps [] (by simp) hnd]
  simp

lemma portfolio_value_of_request {r : PortfolioRequest}
    (hnd : (r.positions.map (·.symbol)).Nodup) :
    portfolio_value (portfolioOfRequest r) = total_weight r.positions := by
  unfold portfolio_value portfolioOfRequest
  rw [dictOfPairs_eq_self]
  · unfold total_weight
    rw [List.map_map]
    rfl
  · rw [List.map_map]
    exact hnd

lemma valid_weight_band {r : PortfolioRequest} (hv : portfolioRequestValid r = true) :
    99 / 100 ≤ total_weight r.positions ∧ total_weight r.positions ≤ 101 / 100 := by
  unfold portfolioRequestValid at hv
  simp only [Bool.and_eq_true] at hv
  have hm := hv.2
  apply validate_weights_ok_iff.mp
  revert hm
  unfold validate_portfolio_weights
  split_ifs with hc
  · intro hm; simp at hm
  · intro _; rfl

lemma valid_positions_ne_nil {r : PortfolioRequest}
    (hv : portfolioRequestValid r = true) : r.positions ≠ [] := by
  unfold portfolioRequestValid at hv
  simp only [Bool.and_eq_true, decide_eq_true_eq] at hv
  intro hnil
  rw [hnil] at hv
  simp at hv

lemma valid_pv_ne_zero {r : PortfolioRequest} (hv : portfolioRequestValid r = true)
    (hnd : (r.positions.map (·.symbol)).Nodup) :
    portfolio_value (portfolioOfRequest r) ≠ 0 := by
  rw [portfolio_value_of_request hnd]
  have := (valid_weight_band hv).1
  intro h0
  rw [h0] at this
  linarith

lemma calculate_var_ok {e : QuantumRiskEngine} {p : Portfolio} {cl : ℚ} {th : ℕ}
    {m : Method} (hpv : portfolio_value p ≠ 0) :
    ∃ vr, QuantumRiskEngine.calculate_var e p cl th m = .ok vr := by
  simp only [QuantumRiskEngine.calculate_var]
  rw [if_neg hpv]
  exact ⟨_, rfl⟩

lemma calculate_var_zero {e : QuantumRiskEngine} {p : Portfolio} {cl : ℚ} {th : ℕ}
    {m : Method} (hpv : portfolio_value p = 0) :
    QuantumRiskEngine.calculate_var e p cl th m = .error .zeroDivisionError := by
  simp only [QuantumRiskEngine.calculate_var]
  rw [if_pos hpv]

lemma calculate_cvar_ok {e : QuantumRiskEngine} {p : Portfolio} {cl : ℚ} {th : ℕ}
    (hpv : portfolio_value p ≠ 0) :
    ∃ cr, QuantumRiskEngine.calculate_cvar e p cl th = .ok cr := by
  simp only [QuantumRiskEngine.calculate_cvar]
  rw [if_neg hpv]
  exact ⟨_, rfl⟩

lemma calculate_cvar_zero {e : QuantumRiskEngine} {p : Portfolio} {cl : ℚ} {th : ℕ}
    (hpv : portfolio_value p = 0) :
    QuantumRiskEngine.calculate_cvar e p cl th = .error .zeroDivisionError := by
  simp only [QuantumRiskEngine.calculate_cvar]
  rw [if_pos hpv]

lemma handler_get_failure (h : String → ℤ) (sqrt252 : ℚ) (e : QuantumRiskEngine)
    (kv : List (String × ResponseData)) (freshId : String) (now el : ℚ)
    (r : PortfolioRequest) (rp : RiskCalculationRequest) :
    calculate_var_handler h .failGet sqrt252 e kv freshId now el r rp =
      ⟨.error .internalServerError, kv,
        [.cacheGet (derive_cache_key h r.portfolio_id rp)]⟩ := rfl

lemma handler_hit {h : String → ℤ} {sqrt252 : ℚ} {e : QuantumRiskEngine}
    {kv : List (String × ResponseData)} {freshId : String} {now el : ℚ}
    {r : PortfolioRequest} {rp : RiskCalculationRequest} {cached : ResponseData}
    (hhit : kvGet kv (derive_cache_key h r.portfolio_id rp) = some cached) :
    calculate_var_handler h .healthy sqrt252 e kv freshId now el r rp =
      ⟨.ok { cached with calculation_id := freshId, from_cache := true }, kv,
        [.cacheGet (derive_cache_key h r.portfolio_id rp)]⟩ := by
  unfold calculate_var_handler
  simp only [redis_get]
  rw [hhit]

lemma handler_miss {h : String → ℤ} {sqrt252 : ℚ} {e : QuantumRiskEngine}
    {kv : List (String × ResponseData)} {freshId : String} {now el : ℚ}
    {r : PortfolioRequest} {rp : RiskCalculationRequest}
    (hmiss : kvGet kv (derive_cache_key h r.portfolio_id rp) = none)
    (hpv : portfolio_value (portfolioOfRequest r) ≠ 0) :
    calculate_var_handler h .healthy sqrt252 e kv freshId now el r rp =
      ⟨.ok (response_data_of sqrt252 e freshId now el r rp),
        kvSet kv (derive_cache_key h r.portfolio_id rp)
          (response_data_of sqrt252 e freshId now el r rp),
        [.cacheGet (derive_cache_key h r.portfolio_id rp), .providerCall,
          .cacheSet (derive_cache_key h r.portfolio_id rp),
          .auditTask freshId]⟩ := by
  unfold calculate_var_handler
  simp only [redis_get, redis_setex]
  rw [hmiss]
  obtain ⟨vr, hvr⟩ := @calculate_var_ok e (portfolioOfRequest r) rp.confidence_level
    rp.time_horizon rp.method hpv
  rw [hvr]

lemma handler_miss_failset {h : String → ℤ} {sqrt252 : ℚ} {e : QuantumRiskEngine}
    {kv : List (String × ResponseData)} {freshId : String} {now el : ℚ}
    {r : PortfolioRequest} {rp : RiskCalculationRequest}
    (hmiss : kvGet kv (derive_cache_key h r.portfolio_id rp) = none)
    (hpv : portfolio_value (portfolioOfRequest r) ≠ 0) :
    calculate_var_handler h .failSet sqrt252 e kv freshId now el r rp =
      ⟨.error .internalServerError, kv,
        [.cacheGet (derive_cache_key h r.portfolio_id rp), .providerCall,
          .cacheSet (derive_cache_key h r.portfolio_id rp)]⟩ := by
  unfold calculate_var_handler
  simp only [redis_get, redis_setex]
  rw [hmiss]
  obtain ⟨vr, hvr⟩ := @calculate_var_ok e (portfolioOfRequest r) rp.confidence_level
    rp.time_horizon rp.method hpv
  rw [hvr]

lemma var_endpoint_valid {h : String → ℤ} {mode : CacheMode} {sqrt252 : ℚ}
    {e : QuantumRiskEngine} {kv : List (String × ResponseData)} {freshId : String}
    {now el : ℚ} {r : PortfolioRequest} {rp : RiskCalculationRequest}
    (hr : portfolioRequestValid r = true) (hp : riskParamsValid rp = true) :
    var_endpoint h mode sqrt252 e kv freshId now el r rp =
      calculate_var_handler h mode sqrt252 e kv freshId now el r rp := by
  unfold var_endpoint
  rw [hr, hp]
  rfl

lemma var_endpoint_invalid {h : String → ℤ} {mode : CacheMode} {sqrt252 : ℚ}
    {e : QuantumRiskEngine} {kv : List (String × ResponseData)} {freshId : String}
    {now el : ℚ} {r : PortfolioRequest} {rp : RiskCalculationRequest}
    (hr : ¬(portfolioRequestValid r = true ∧ riskParamsValid rp = true)) :
    var_endpoint h mode sqrt252 e kv freshId now el r rp =
      ⟨.error .validationError, kv, []⟩ := by
  unfold var_endpoint
  have : (portfolioRequestValid r && riskParamsValid rp) = false := by
    rw [Bool.and_eq_false_iff]
    by_cases h1 : portfolioRequestValid r = true
    · right
      by_cases h2 : riskParamsValid rp = true
      · exact absurd ⟨h1, h2⟩ hr
      · simpa using h2
    · left; simpa using h1
  rw [this]
  rfl

/-! ### Concrete fixtures used by witnesses and counterexamples -/

/-- A stand-in for the process's string hash, used where a concrete hash
function is needed for evaluation. -/
def h0 : String → ℤ := fun s => (s.length : ℤ)

def posAAPL : PortfolioPosition := { symbol := "AAPL", weight := 1 / 2, market_value := some 150 }

def posGOOGL : PortfolioPosition := { symbol := "GOOGL", weight := 1 / 2, market_value := some 2800 }

/-- The spec's concrete scenario: portfolio P1 with AAPL and GOOGL at weight 0.5. -/
def req0 : PortfolioRequest := { portfolio_id := "P1", positions := [posAAPL, posGOOGL] }

/-- Default risk parameters (all pydantic defaults). -/
def rp0 : RiskCalculationRequest := {}

lemma req0_total : total_weight req0.positions = 1 := by
  norm_num [total_weight, req0, posAAPL, posGOOGL]

lemma req0_weights_ok : validate_portfolio_weights req0.positions = .ok req0.positions := by
  unfold validate_portfolio_weights
  rw [req0_total]
  norm_num

lemma req0_valid : portfolioRequestValid req0 = true := by
  unfold portfolioRequestValid
  rw [req0_weights_ok]
  have h1 : symbolValid "AAPL" = true := by decide
  have h2 : symbolValid "GOOGL" = true := by decide
  simp [req0, posAAPL, posGOOGL, positionValid, h1, h2]
  norm_num

lemma rp0_valid : riskParamsValid rp0 = true := by
  simp [riskParamsValid, rp0]
  norm_num

lemma req0_nodup : (req0.positions.map (·.symbol)).Nodup := by
  simp [req0, posAAPL, posGOOGL]

/-! ### C2 — weight-sum validation -/

/-- C2: for every portfolio whose position weights sum to a value within
[0.99, 1.01], weight validation succeeds; for every portfolio whose weight
sum lies outside that band, validation fails with a ValidationError. -/
theorem C2_weight_sum_validation (v : List PortfolioPosition) :
    (validate_portfolio_weights v = .ok v ↔
      (99 / 100 ≤ total_weight v ∧ total_weight v ≤ 101 / 100)) ∧
    ((total_weight v < 99 / 100 ∨ 101 / 100 < total_weight v) →
      validate_portfolio_weights v = .error (weightErrorMsg (total_weight v))) := by
  refine ⟨validate_weights_ok_iff, ?_⟩
  intro hout
  unfold validate_portfolio_weights
  have habs : |total_weight v - 1| > 1 / 100 := by
    rcases hout with hlt | hgt
    · calc (1:ℚ)/100 < -(total_weight v - 1) := by linarith
        _ ≤ |total_weight v - 1| := neg_le_abs _
    · calc (1:ℚ)/100 < total_weight v - 1 := by linarith
        _ ≤ |total_weight v - 1| := le_abs_self _
  rw [if_pos habs]

/-- C2 witness: the fixture portfolio with weights 0.5 + 0.5 = 1 passes, and
the validator's verdict matches the band characterisation. -/
theorem C2_weight_sum_validation_witness :
    (validate_portfolio_weights req0.positions = .ok req0.positions ↔
      (99 / 100 ≤ total_weight req0.positions ∧ total_weight req0.positions ≤ 101 / 100)) ∧
    validate_portfolio_weights req0.positions = .ok req0.positions :=
  ⟨(C2_weight_sum_validation req0.positions).1, req0_weights_ok⟩

/-! ### C9 — stub arithmetic -/

/-- The portfolio the handler would build for the fixture request: weights sum
to 1, market values to 2950. -/
def stubPortfolio : Portfolio :=
  { positions := [("AAPL", 1 / 2), ("GOOGL", 1 / 2)]
    prices := [("AAPL", 150), ("GOOGL", 2800)] }

/-- C9 counterexample: for this concrete portfolio, calculate_var with
quantum_mc returns 0.023 times the WEIGHT sum (= 1), not 0.023 times the
aggregate notional value 2950 demanded by the claim. -/
theorem C9_stub_arithmetic_counterexample :
    (QuantumRiskEngine.calculate_var {} stubPortfolio (95 / 100) 1 .quantum_mc).map
        (·.var_amount) = .ok (23 / 1000) ∧
    glossaryNotionalValue stubPortfolio = 2950 ∧
    ((23 : ℚ) / 1000 ≠ 2950 * (23 / 1000)) := by
  have hpv : portfolio_value stubPortfolio = 1 := by
    norm_num [portfolio_value, stubPortfolio]
  refine ⟨?_, by norm_num [glossaryNotionalValue, stubPortfolio], by norm_num⟩
  simp only [QuantumRiskEngine.calculate_var, hpv]
  norm_num [Except.map]

/-- C9 (amended): every risk function multiplies the sum of the position
WEIGHTS (the quantity the source calls portfolio_value) by a fixed
per-function constant: 0.023 / 0.025 / 0.022 / 0.024 for calculate_var by
method, 0.031 for calculate_cvar, and 0.023 / 0.035 / 0.031 / 0.048 / 0.085
for the comprehensive metrics. -/
theorem C9_stub_arithmetic_amended (e : QuantumRiskEngine) (p : Portfolio) (cl : ℚ)
    (th : ℕ) (hpv : portfolio_value p ≠ 0) :
    (QuantumRiskEngine.calculate_var e p cl th .quantum_mc).map (·.var_amount) =
        .ok (portfolio_value p * (23 / 1000)) ∧
    (QuantumRiskEngine.calculate_var e p cl th .monte_carlo).map (·.var_amount) =
        .ok (portfolio_value p * (25 / 1000)) ∧
    (QuantumRiskEngine.calculate_var e p cl th .historical).map (·.var_amount) =
        .ok (portfolio_value p * (22 / 1000)) ∧
    (QuantumRiskEngine.calculate_var e p cl th .parametric).map (·.var_amount) =
        .ok (portfolio_value p * (24 / 1000)) ∧
    (QuantumRiskEngine.calculate_cvar e p cl th).map (·.cvar_amount) =
        .ok (portfolio_value p * (31 / 1000)) ∧
    ∀ sqrt252 rfr : ℚ,
      (QuantumRiskEngine.calculate_portfolio_metrics e sqrt252 p rfr).var_95 =
          portfolio_value p * (23 / 1000) ∧
      (QuantumRiskEngine.calculate_portfolio_metrics e sqrt252 p rfr).var_99 =
          portfolio_value p * (35 / 1000) ∧
      (QuantumRiskEngine.calculate_portfolio_metrics e sqrt252 p rfr).cvar_95 =
          portfolio_value p * (31 / 1000) ∧
      (QuantumRiskEngine.calculate_portfolio_metrics e sqrt252 p rfr).cvar_99 =
          portfolio_value p * (48 / 1000) ∧
      (QuantumRiskEngine.calculate_portfolio_metrics e sqrt252 p rfr).max_drawdown =
          portfolio_value p * (85 / 1000) := by
  refine ⟨?_, ?_, ?_, ?_, ?_, fun sqrt252 rfr => ⟨rfl, rfl, rfl, rfl, rfl⟩⟩ <;>
    · first
      | (simp only [QuantumRiskEngine.calculate_var]; rw [if_neg hpv]; rfl)
      | (simp only [QuantumRiskEngine.calculate_cvar]; rw [if_neg hpv]; rfl)

/-- C9 witness: the amended constants at the concrete stub portfolio. -/
theorem C9_stub_arithmetic_witness :
    (portfolio_value stubPortfolio ≠ 0) ∧
    (QuantumRiskEngine.calculate_var {} stubPortfolio (95 / 100) 1 .quantum_mc).map
        (·.var_amount) = .ok (portfolio_value stubPortfolio * (23 / 1000)) ∧
    (QuantumRiskEngine.calculate_cvar {} stubPortfolio (95 / 100) 1).map
        (·.cvar_amount) = .ok (portfolio_value stubPortfolio * (31 / 1000)) :=
  have hpv : portfolio_value stubPortfolio ≠ 0 := by
    norm_num [portfolio_value, stubPortfolio]
  ⟨hpv, (C9_stub_arithmetic_amended {} stubPortfolio (95 / 100) 1 hpv).1,
    (C9_stub_arithmetic_amended {} stubPortfolio (95 / 100) 1 hpv).2.2.2.2.1⟩

/-! ### C10 — division guard -/

def dupPositionOne : PortfolioPosition := { symbol := "A", weight := 1 }

def dupPositionZero : PortfolioPosition := { symbol := "A", weight := 0 }

/-- A request whose two positions share the symbol A with weights 1 and 0: the
weight sum is 1, yet the dict comprehension collapses the two entries to the
later one, of weight 0. -/
def dupRequest : PortfolioRequest :=
  { portfolio_id := "P1", positions := [dupPositionOne, dupPositionZero] }

lemma dupRequest_pv : portfolio_value (portfolioOfRequest dupRequest) = 0 := by
  norm_num [portfolio_value, portfolioOfRequest, dictOfPairs, dictInsert,
    dupRequest, dupPositionOne, dupPositionZero]

/-- C10 counterexample: the duplicate-symbol request passes the endpoint's
weight-sum validation (and full pydantic validation), yet the engine raises
ZeroDivisionError on the portfolio built from it, so the error branch is
reachable for requests passing weight-sum validation. -/
theorem C10_division_guard_counterexample :
    validate_portfolio_weights dupRequest.positions = .ok dupRequest.positions ∧
    portfolioRequestValid dupRequest = true ∧
    QuantumRiskEngine.calculate_var {} (portfolioOfRequest dupRequest) (95 / 100) 1
        .quantum_mc = .error .zeroDivisionError := by
  have ht : total_weight dupRequest.positions = 1 := by
    norm_num [total_weight, dupRequest, dupPositionOne, dupPositionZero]
  have hval : validate_portfolio_weights dupRequest.positions = .ok dupRequest.positions := by
    unfold validate_portfolio_weights
    rw [ht]
    norm_num
  refine ⟨hval, ?_, calculate_var_zero dupRequest_pv⟩
  unfold portfolioRequestValid
  rw [hval]
  have h1 : symbolValid "A" = true := by decide
  simp [dupRequest, dupPositionOne, dupPositionZero, positionValid, h1]

/-- C10 (amended): calculate_var and calculate_cvar return normally for every
portfolio with nonzero weight sum and raise ZeroDivisionError exactly when the
weight sum is zero; the error branch is unreachable for requests that pass
weight-sum validation AND have pairwise distinct symbols (duplicate symbols
are collapsed by the dict construction and can drive the engine's weight sum
to zero, as the counterexample shows). -/
theorem C10_division_guard_amended (e : QuantumRiskEngine) (p : Portfolio) (cl : ℚ)
    (th : ℕ) (m : Method) :
    (portfolio_value p ≠ 0 → ∃ vr, QuantumRiskEngine.calculate_var e p cl th m = .ok vr) ∧
    (portfolio_value p ≠ 0 → ∃ cr, QuantumRiskEngine.calculate_cvar e p cl th = .ok cr) ∧
    (portfolio_value p = 0 →
      QuantumRiskEngine.calculate_var e p cl th m = .error .zeroDivisionError) ∧
    (portfolio_value p = 0 →
      QuantumRiskEngine.calculate_cvar e p cl th = .error .zeroDivisionError) ∧
    (∀ r : PortfolioRequest, validate_portfolio_weights r.positions = .ok r.positions →
      (r.positions.map (·.symbol)).Nodup → portfolio_value (portfolioOfRequest r) ≠ 0) := by
  refine ⟨fun hpv => calculate_var_ok hpv, fun hpv => calculate_cvar_ok hpv,
    fun hpv => calculate_var_zero hpv, fun hpv => calculate_cvar_zero hpv, ?_⟩
  intro r hok hnd
  rw [portfolio_value_of_request hnd]
  have hlo := (validate_weights_ok_iff.mp hok).1
  intro hz
  rw [hz] at hlo
  linarith

/-! ### C3 — warning generation -/

/-- C3: for every (nonempty) portfolio, the warnings list contains the
concentration-risk warning iff some position weight exceeds 0.3, the
low-diversification warning iff there are fewer than 5 positions, and the
micro-position warning iff more than 10 positions have weight below 0.01;
warnings never cause rejection, and they are carried into the response of a
valid request. -/
theorem C3_warning_generation (h : String → ℤ) (sqrt252 : ℚ) (e : QuantumRiskEngine)
    (freshId : String) (now el : ℚ) (r : PortfolioRequest) (rp : RiskCalculationRequest)
    (hne : r.positions ≠ []) :
    (concentrationWarning (max_weight r.positions) ∈ validate_portfolio_risk r ↔
      ∃ p ∈ r.positions, p.weight > 3 / 10) ∧
    (lowDiversificationWarning ∈ validate_portfolio_risk r ↔ r.positions.length < 5) ∧
    (microWarning (micro_positions r.positions).length ∈ validate_portfolio_risk r ↔
      (micro_positions r.positions).length > 10) ∧
    (portfolioRequestValid r = true → riskParamsValid rp = true →
      (r.positions.map (·.symbol)).Nodup →
      ∃ resp, (var_endpoint h .healthy sqrt252 e [] freshId now el r rp).result = .ok resp ∧
        resp.warnings = validate_portfolio_risk r) := by
  refine ⟨?_, ?_, ?_, ?_⟩
  · rw [mem_warnings, ← max_weight_gt_iff hne]
    constructor
    · rintro (⟨hc, _⟩ | ⟨_, heq⟩ | ⟨_, heq⟩)
      · exact hc
      · exact absurd heq (concentration_ne_lowdiv _)
      · exact absurd heq (concentration_ne_micro _ _)
    · intro hc; exact Or.inl ⟨hc, rfl⟩
  · rw [mem_warnings]
    constructor
    · rintro (⟨_, heq⟩ | ⟨hc, _⟩ | ⟨_, heq⟩)
      · exact absurd heq.symm (concentration_ne_lowdiv _)
      · exact hc
      · exact absurd heq (lowdiv_ne_micro _)
    · intro hc; exact Or.inr (Or.inl ⟨hc, rfl⟩)
  · rw [mem_warnings]
    constructor
    · rintro (⟨_, heq⟩ | ⟨_, heq⟩ | ⟨hc, _⟩)
      · exact absurd heq.symm (concentration_ne_micro _ _)
      · exact absurd heq.symm (lowdiv_ne_micro _)
      · exact hc
    · intro hc; exact Or.inr (Or.inr ⟨hc, rfl⟩)
  · intro hv hp hnd
    rw [var_endpoint_valid hv hp,
      handler_miss (by simp [kvGet]) (valid_pv_ne_zero hv hnd)]
    exact ⟨_, rfl, rfl⟩

/-- C3 witness: the two-position fixture portfolio triggers the
low-diversification warning, is not rejected, and its warnings are carried
into the successful response. -/
theorem C3_warning_generation_witness :
    (req0.positions ≠ []) ∧
    (lowDiversificationWarning ∈ validate_portfolio_risk req0 ↔ req0.positions.length < 5) ∧
    (∃ resp, (var_endpoint h0 .healthy 16 {} [] "id-1" 0 5 req0 rp0).result = .ok resp ∧
      resp.warnings = validate_portfolio_risk req0) :=
  have hne : req0.positions ≠ [] := by simp [req0]
  ⟨hne, (C3_warning_generation h0 16 {} "id-1" 0 5 req0 rp0 hne).2.1,
    (C3_warning_generation h0 16 {} "id-1" 0 5 req0 rp0 hne).2.2.2
      req0_valid rp0_valid req0_nodup⟩

/-! ### C4 — fresh calculation id -/

lemma handler_ok_calculation_id {h : String → ℤ} {mode : CacheMode} {sqrt252 : ℚ}
    {e : QuantumRiskEngine} {kv : List (String × ResponseData)} {freshId : String}
    {now el : ℚ} {r : PortfolioRequest} {rp : RiskCalculationRequest} {resp : ResponseData}
    (hres : (calculate_var_handler h mode sqrt252 e kv freshId now el r rp).result = .ok resp) :
    resp.calculation_id = freshId := by
  unfold calculate_var_handler at hres
  split at hres
  · simp at hres
  · simp only [Except.ok.injEq] at hres
    rw [← hres]
  · split at hres
    · simp at hres
    · split at hres
      · simp at hres
      · simp only [Except.ok.injEq] at hres
        rw [← hres]
        rfl

/-- C4: every successful response of the VaR endpoint carries the calculation
id freshly generated for that request — also on a cache hit — and therefore
never the calculation id stored in the cached payload (when the two ids
differ, as distinct uuid4 draws do). -/
theorem C4_fresh_calculation_id (h : String → ℤ) (mode : CacheMode) (sqrt252 : ℚ)
    (e : QuantumRiskEngine) (kv : List (String × ResponseData)) (freshId : String)
    (now el : ℚ) (r : PortfolioRequest) (rp : RiskCalculationRequest) :
    (∀ resp, (var_endpoint h mode sqrt252 e kv freshId now el r rp).result = .ok resp →
      resp.calculation_id = freshId) ∧
    (∀ cached resp, kvGet kv (derive_cache_key h r.portfolio_id rp) = some cached →
      (var_endpoint h mode sqrt252 e kv freshId now el r rp).result = .ok resp →
      freshId ≠ cached.calculation_id → resp.calculation_id ≠ cached.calculation_id) := by
  have hfirst : ∀ resp,
      (var_endpoint h mode sqrt252 e kv freshId now el r rp).result = .ok resp →
      resp.calculation_id = freshId := by
    intro resp hres
    by_cases hv : portfolioRequestValid r = true ∧ riskParamsValid rp = true
    · rw [var_endpoint_valid hv.1 hv.2] at hres
      exact handler_ok_calculation_id hres
    · rw [var_endpoint_invalid hv] at hres
      simp at hres
  refine ⟨hfirst, ?_⟩
  intro cached resp _ hres hneq
  rw [hfirst resp hres]
  exact hneq

/-- C4 witness: a cache hit at the fixture request returns the fresh id, not
the stored one. -/
theorem C4_fresh_calculation_id_witness :
    ∀ resp, (var_endpoint h0 .healthy 16 {} [] "fresh-id" 0 0 req0 rp0).result = .ok resp →
      resp.calculation_id = "fresh-id" :=
  (C4_fresh_calculation_id h0 .healthy 16 {} [] "fresh-id" 0 0 req0 rp0).1

/-! ### C5 — computation time on a cache hit (code bug) -/

def cachedMetrics0 : RiskMetricsMap :=
  { var_95 := 1, var_99 := 1, cvar_95 := 1, cvar_99 := 1, volatility_daily := 1,
    volatility_annual := 1, sharpe_ratio := 1, max_drawdown := 1, currency := "USD" }

def cachedMethodology0 : MethodologyMap :=
  { model_type := .quantum_mc, confidence_level := 95 / 100, time_horizon_days := 1,
    simulation_paths := 10000, quantum_enhancement := true }

/-- A cached payload whose stored computation_time_ms is 57. -/
def cachedPayload0 : ResponseData :=
  { calculation_id := "cached-id", timestamp := 0, portfolio_id := "P1",
    risk_metrics := cachedMetrics0, methodology := cachedMethodology0,
    warnings := [], computation_time_ms := 57 }

/-- C5 evaluated at the failing input: a cache-hit request whose own elapsed
wall clock is 0 ms is answered with the CACHED computation_time_ms of 57 ms —
the handler never overwrites the cached field — contradicting the claim that
the reported time reflects the current request. -/
theorem C5_computation_time_code_bug :
    (var_endpoint h0 .healthy 16 {} [(derive_cache_key h0 "P1" rp0, cachedPayload0)]
        "fresh-id" 0 0 req0 rp0).result.map (·.computation_time_ms) = .ok 57 ∧
    ((57 : ℚ) ≠ 0) := by
  have hkey : kvGet [(derive_cache_key h0 "P1" rp0, cachedPayload0)]
      (derive_cache_key h0 req0.portfolio_id rp0) = some cachedPayload0 := by
    simp [kvGet, show req0.portfolio_id = "P1" from rfl]
  refine ⟨?_, by norm_num⟩
  rw [var_endpoint_valid req0_valid rp0_valid, handler_hit hkey]
  rfl

/-! ### C6 — fail-fast validation -/

/-- C6: a request failing portfolio or risk-parameter validation is rejected
with a ValidationError before any cache lookup, cache store or provider call:
the outcome carries the unchanged cache and an empty effect list. -/
theorem C6_fail_fast (h : String → ℤ) (mode : CacheMode) (sqrt252 : ℚ)
    (e : QuantumRiskEngine) (kv : List (String × ResponseData)) (freshId : String)
    (now el : ℚ) (r : PortfolioRequest) (rp : RiskCalculationRequest)
    (hinv : ¬(portfolioRequestValid r = true ∧ riskParamsValid rp = true)) :
    var_endpoint h mode sqrt252 e kv freshId now el r rp =
      ⟨.error .validationError, kv, []⟩ :=
  var_endpoint_invalid hinv

def badPositionB : PortfolioPosition := { symbol := "B", weight := 6 / 10 }

/-- The spec's rejection scenario: weights 0.5 and 0.6 summing to 1.1. -/
def badRequest : PortfolioRequest :=
  { portfolio_id := "P1", positions := [posAAPL, badPositionB] }

lemma badRequest_invalid :
    ¬(portfolioRequestValid badRequest = true ∧ riskParamsValid rp0 = true) := by
  have ht : total_weight badRequest.positions = 11 / 10 := by
    norm_num [total_weight, badRequest, posAAPL, badPositionB]
  have hval : validate_portfolio_weights badRequest.positions =
      .error (weightErrorMsg (total_weight badRequest.positions)) := by
    unfold validate_portfolio_weights
    rw [if_pos]
    rw [ht]
    norm_num [abs_of_nonneg]
  intro hcon
  have hv := hcon.1
  unfold portfolioRequestValid at hv
  rw [hval] at hv
  simp at hv

/-- C6 witness: the 0.5 + 0.6 request is rejected with untouched cache and no
effects. -/
theorem C6_fail_fast_witness :
    var_endpoint h0 .healthy 16 {} [] "id-1" 0 0 badRequest rp0 =
      ⟨.error .validationError, [], []⟩ :=
  C6_fail_fast h0 .healthy 16 {} [] "id-1" 0 0 badRequest rp0 badRequest_invalid

/-! ### C7 — cache failure handling (code bug) -/

/-- C7 evaluated at the failing inputs: on a valid request, a failing cache
lookup — and likewise a failing cache store — makes the handler's blanket
try/except return HTTP 500 instead of falling back to direct computation. -/
theorem C7_cache_failure_code_bug :
    (var_endpoint h0 .failGet 16 {} [] "id-1" 0 0 req0 rp0).result =
        .error .internalServerError ∧
    (var_endpoint h0 .failSet 16 {} [] "id-1" 0 0 req0 rp0).result =
        .error .internalServerError := by
  constructor
  · rw [var_endpoint_valid req0_valid rp0_valid, handler_get_failure]
  · rw [var_endpoint_valid req0_valid rp0_valid,
      handler_miss_failset (by simp [kvGet]) (valid_pv_ne_zero req0_valid req0_nodup)]

/-! ### C8 — cache round trip -/

/-- C8: after a cache miss stores a payload under key K, reading K immediately
returns that payload, and an identical follow-up request is served from it
with risk_metrics, methodology and warnings identical to what was stored
(only calculation_id, and the computation time semantics of C5, differ). -/
theorem C8_cache_round_trip (h : String → ℤ) (sqrt252 : ℚ) (e : QuantumRiskEngine)
    (kv : List (String × ResponseData)) (freshId1 freshId2 : String)
    (now1 now2 el1 el2 : ℚ) (r : PortfolioRequest) (rp : RiskCalculationRequest)
    (hv : portfolioRequestValid r = true) (hp : riskParamsValid rp = true)
    (hnd : (r.positions.map (·.symbol)).Nodup)
    (hmiss : kvGet kv (derive_cache_key h r.portfolio_id rp) = none) :
    ∃ stored,
      kvGet (var_endpoint h .healthy sqrt252 e kv freshId1 now1 el1 r rp).cache
          (derive_cache_key h r.portfolio_id rp) = some stored ∧
      ∃ resp2,
        (var_endpoint h .healthy sqrt252 e
            (var_endpoint h .healthy sqrt252 e kv freshId1 now1 el1 r rp).cache
            freshId2 now2 el2 r rp).result = .ok resp2 ∧
          resp2.risk_metrics = stored.risk_metrics ∧
          resp2.methodology = stored.methodology ∧
          resp2.warnings = stored.warnings := by
  have hpv := valid_pv_ne_zero hv hnd
  rw [var_endpoint_valid hv hp, handler_miss hmiss hpv]
  have hhit : kvGet (kvSet kv (derive_cache_key h r.portfolio_id rp)
      (response_data_of sqrt252 e freshId1 now1 el1 r rp))
      (derive_cache_key h r.portfolio_id rp) =
      some (response_data_of sqrt252 e freshId1 now1 el1 r rp) := by
    simp [kvGet, kvSet]
  refine ⟨response_data_of sqrt252 e freshId1 now1 el1 r rp, by simp [kvGet, kvSet], ?_⟩
  rw [var_endpoint_valid hv hp, handler_hit hhit]
  exact ⟨_, rfl, rfl, rfl, rfl⟩

/-- C8 witness: the round trip at the fixture request on an empty cache. -/
theorem C8_cache_round_trip_witness :
    ∃ stored,
      kvGet (var_endpoint h0 .healthy 16 {} [] "a" 0 7 req0 rp0).cache
          (derive_cache_key h0 req0.portfolio_id rp0) = some stored ∧
      ∃ resp2,
        (var_endpoint h0 .healthy 16 {}
            (var_endpoint h0 .healthy 16 {} [] "a" 0 7 req0 rp0).cache
            "b" 1 0 req0 rp0).result = .ok resp2 ∧
          resp2.risk_metrics = stored.risk_metrics ∧
          resp2.methodology = stored.methodology ∧
          resp2.warnings = stored.warnings :=
  C8_cache_round_trip h0 16 {} [] "a" "b" 0 1 7 0 req0 rp0 req0_valid rp0_valid
    req0_nodup (by simp [kvGet])

/-! ### C1 — cache key determinism and parameter sensitivity -/

/-- The signed 64-bit value denoted by one CPython string-hash word. -/
def hashInt (v : Fin (2 ^ 64)) : ℤ := (v : ℤ) - 2 ^ 63

/-- The parameter-sensitivity half of C1 as the claim states it, read over the
model: there is a process hash seed (a 64-bit string hash, the only thing the
program's hash can be) under which any two distinct valid risk-parameter sets
always derive distinct cache keys. -/
def cacheKeySensitivityClaim : Prop :=
  ∃ h64 : String → Fin (2 ^ 64), ∀ pid : String, ∀ p1 p2 : RiskCalculationRequest,
    riskParamsValid p1 = true → riskParamsValid p2 = true → p1 ≠ p2 →
    derive_cache_key (fun s => hashInt (h64 s)) pid p1 ≠
      derive_cache_key (fun s => hashInt (h64 s)) pid p2

/-- An infinite family of pairwise distinct valid parameter sets, differing
only in the risk-free rate. -/
def pFam (n : ℕ) : RiskCalculationRequest := { risk_free_rate := 1 / ((n : ℚ) + 11) }

lemma pFam_valid (n : ℕ) : riskParamsValid (pFam n) = true := by
  have h1 : (0:ℚ) ≤ 1 / ((n : ℚ) + 11) := by positivity
  have h2 : 1 / ((n : ℚ) + 11) ≤ 10 / 100 := by
    have hc : (10:ℚ) ≤ (n : ℚ) + 11 := by
      have hnn : (0:ℚ) ≤ (n:ℚ) := Nat.cast_nonneg n
      linarith
    calc 1 / ((n : ℚ) + 11) ≤ 1 / 10 := one_div_le_one_div_of_le (by norm_num) hc
      _ = 10 / 100 := by norm_num
  simp only [riskParamsValid, pFam, Bool.and_eq_true, decide_eq_true_eq]
  refine ⟨⟨⟨⟨⟨⟨⟨?_, ?_⟩, ?_⟩, ?_⟩, ?_⟩, ?_⟩, ?_⟩, ?_⟩ <;>
    first
    | (norm_num; done)
    | exact h1
    | exact h2

lemma pFam_inj_ne {n m : ℕ} (hnm : n ≠ m) : pFam n ≠ pFam m := by
  intro he
  apply hnm
  have hr := congrArg RiskCalculationRequest.risk_free_rate he
  simp only [pFam] at hr
  have hn0 : ((n:ℚ) + 11) ≠ 0 := by positivity
  have hm0 : ((m:ℚ) + 11) ≠ 0 := by positivity
  rw [div_eq_div_iff hn0 hm0] at hr
  have hq : (n:ℚ) = (m:ℚ) := by linarith
  exact_mod_cast hq

/-- C1 counterexample: absolute parameter sensitivity is impossible — under
EVERY possible hash seed, the infinitely many valid parameter sets are mapped
through a finite 64-bit hash range, so two distinct valid parameter sets with
identical cache keys exist; the claim's sensitivity half is equivalent to
False, refuted at portfolio id P1 over the risk-free-rate family pFam. -/
theorem C1_cache_key_counterexample : cacheKeySensitivityClaim ↔ False := by
  constructor
  · rintro ⟨h64, hclaim⟩
    obtain ⟨n, m, hnm, heq⟩ :=
      Finite.exists_ne_map_eq_of_infinite (fun k : ℕ => h64 (strOfRiskParams (pFam k)))
    have heq2 : h64 (strOfRiskParams (pFam n)) = h64 (strOfRiskParams (pFam m)) := heq
    exact hclaim "P1" (pFam n) (pFam m) (pFam_valid n) (pFam_valid m) (pFam_inj_ne hnm)
      (by
        have heq3 : hashInt (h64 (strOfRiskParams (pFam n))) =
            hashInt (h64 (strOfRiskParams (pFam m))) := congrArg hashInt heq2
        unfold derive_cache_key
        exact congrArg (fun z : ℤ => "var:" ++ "P1" ++ ":" ++ String.mk (intReprL z)) heq3)
  · exact False.elim

/-- C1 (amended): key derivation is deterministic — the same (portfolio_id,
parameters) pair always yields the identical key string — and distinct
parameter sets always produce distinct hash-INPUT strings, so keys differ
whenever the process's 64-bit hash does not collide on those two distinct
strings; collision-freedom itself cannot be absolute (see the
counterexample), only per-hash-collision sensitivity holds. -/
theorem C1_cache_key_amended (h : String → ℤ) (pid : String)
    (p1 p2 : RiskCalculationRequest) :
    derive_cache_key h pid p1 = derive_cache_key h pid p1 ∧
    (p1 ≠ p2 → strOfRiskParams p1 ≠ strOfRiskParams p2) ∧
    (h (strOfRiskParams p1) ≠ h (strOfRiskParams p2) →
      derive_cache_key h pid p1 ≠ derive_cache_key h pid p2) := by
  refine ⟨rfl, ?_, ?_⟩
  · intro hne hs
    exact hne (strOfRiskParams_inj hs)
  · intro hh hk
    exact hh (derive_cache_key_hash_inj hk)

/-- Witness fixtures for C1 with kernel-evaluable rational literals. -/
def rpW1 : RiskCalculationRequest :=
  { confidence_level := ⟨19, 20, by decide, by decide⟩
    time_horizon := 1
    method := .quantum_mc
    num_simulations := 10000
    risk_free_rate := ⟨1, 50, by decide, by decide⟩ }

def rpW2 : RiskCalculationRequest := { rpW1 with num_simulations := 100000 }

/-- C1 witness: two parameter sets differing only in the simulation count have
distinct encodings and, under a hash distinguishing them, distinct keys. -/
theorem C1_cache_key_amended_witness :
    (rpW1 ≠ rpW2) ∧
    strOfRiskParams rpW1 ≠ strOfRiskParams rpW2 ∧
    derive_cache_key h0 "P1" rpW1 ≠ derive_cache_key h0 "P1" rpW2 :=
  ⟨by decide, (C1_cache_key_amended h0 "P1" rpW1 rpW2).2.1 (by decide),
    (C1_cache_key_amended h0 "P1" rpW1 rpW2).2.2 (by decide)⟩
